import Mathlib

/-!
Verification of the 3D rotation-calculator conversion engine (conversion.js).

Vectors, quaternions and 3x3 column-major matrices are embedded as functions
out of `Fin n` into `ℝ`.  The glMatrix library primitives the engine calls
(vec3.normalize, quat.normalize, quat.setAxisAngle, quat.getAxisAngle,
quat.fromEuler with order zyx, mat3.create, mat3.fromQuat, toRadian, toDegree)
are embedded from the library's source.  Functions that write into a
caller-supplied `out` buffer take the buffer's prior contents as an argument
and return its final contents; functions that mutate their input quaternion
also return the quaternion's final contents, so aliasing side effects are
visible in the model.  A JavaScript `throw` is modelled as an error value
(`Except.error` for functions with no observable partial state, or an
`Option RotError` component alongside the final buffer contents when the
buffer has already been partially written at throw time).
-/

namespace RotCalc

/-- glMatrix EPSILON constant (0.000001), used by quat.getAxisAngle. -/
noncomputable def glEPSILON : ℝ := 0.000001

/-- glMatrix toRadian: degrees to radians. -/
noncomputable def toRadian (a : ℝ) : ℝ := a * (Real.pi / 180)

/-- glMatrix toDegree: radians to degrees. -/
noncomputable def toDegree (a : ℝ) : ℝ := a * (180 / Real.pi)

/-- JavaScript Math.atan2(y, x) over the reals (the sign of a zero is not
modelled, since ℝ has a single zero). -/
noncomputable def atan2 (y x : ℝ) : ℝ :=
  if 0 < x then Real.arctan (y / x)
  else if x < 0 then
    (if 0 ≤ y then Real.arctan (y / x) + Real.pi else Real.arctan (y / x) - Real.pi)
  else
    (if 0 < y then Real.pi / 2 else if y < 0 then -(Real.pi / 2) else 0)

/-- Error taxonomy of the spec.  The payload records which function threw.
conversion.js only ever constructs `invalidUnit`; `invalidAxis` appears in the
spec's taxonomy but nowhere in the code. -/
inductive RotError where
  | invalidUnit : String → RotError
  | invalidAxis : String → RotError

/-- glMatrix vec3.normalize (guards `len > 0`, so the zero vector is returned
unchanged rather than dividing by zero). -/
noncomputable def vec3Normalize (a : Fin 3 → ℝ) : Fin 3 → ℝ :=
  let len := a 0 * a 0 + a 1 * a 1 + a 2 * a 2
  let s := if 0 < len then 1 / Real.sqrt len else len
  ![a 0 * s, a 1 * s, a 2 * s]

/-- glMatrix quat.normalize (= vec4.normalize), with the same `len > 0` guard. -/
noncomputable def quatNormalize (a : Fin 4 → ℝ) : Fin 4 → ℝ :=
  let len := a 0 * a 0 + a 1 * a 1 + a 2 * a 2 + a 3 * a 3
  let s := if 0 < len then 1 / Real.sqrt len else len
  ![a 0 * s, a 1 * s, a 2 * s, a 3 * s]

/-- glMatrix quat.setAxisAngle. -/
noncomputable def quatSetAxisAngle (axis : Fin 3 → ℝ) (rad : ℝ) : Fin 4 → ℝ :=
  let s := Real.sin (rad * 0.5)
  ![s * axis 0, s * axis 1, s * axis 2, Real.cos (rad * 0.5)]

/-- glMatrix quat.getAxisAngle: returns the axis written into out_axis and the
returned angle `2*acos(q[3])`; when `sin(rad/2)` is not above EPSILON the axis
is the arbitrary fixed choice (1,0,0). -/
noncomputable def quatGetAxisAngle (q : Fin 4 → ℝ) : (Fin 3 → ℝ) × ℝ :=
  let rad := Real.arccos (q 3) * 2
  let s := Real.sin (rad / 2)
  if glEPSILON < s then (![q 0 / s, q 1 / s, q 2 / s], rad)
  else (![1, 0, 0], rad)

/-- glMatrix mat3.create: the 3x3 identity, column-major. -/
noncomputable def mat3Create : Fin 9 → ℝ := ![1, 0, 0, 0, 1, 0, 0, 0, 1]

/-- glMatrix mat3.fromQuat: standard quaternion-to-matrix closed form. -/
noncomputable def mat3FromQuat (q : Fin 4 → ℝ) : Fin 9 → ℝ :=
  let x := q 0
  let y := q 1
  let z := q 2
  let w := q 3
  let x2 := x + x
  let y2 := y + y
  let z2 := z + z
  let xx := x * x2
  let yx := y * x2
  let yy := y * y2
  let zx := z * x2
  let zy := z * y2
  let zz := z * z2
  let wx := w * x2
  let wy := w * y2
  let wz := w * z2
  ![1 - yy - zz, yx + wz, zx - wy,
    yx - wz, 1 - xx - zz, zy + wx,
    zx + wy, zy - wx, 1 - xx - yy]

/-- glMatrix quat.fromEuler with order zyx: arguments are three angles in
degrees, halved and converted to radians, then combined by the zyx branch of
the switch. -/
noncomputable def quatFromEulerZYX (xdeg ydeg zdeg : ℝ) : Fin 4 → ℝ :=
  let halfToRad := Real.pi / 360
  let x := xdeg * halfToRad
  let y := ydeg * halfToRad
  let z := zdeg * halfToRad
  let sx := Real.sin x
  let cx := Real.cos x
  let sy := Real.sin y
  let cy := Real.cos y
  let sz := Real.sin z
  let cz := Real.cos z
  ![sx * cy * cz - cx * sy * sz,
    cx * sy * cz + sx * cy * sz,
    cx * cy * sz - sx * sy * cz,
    cx * cy * cz + sx * sy * sz]

/-- conversion.js quaternionToEuler.  `out` holds the buffer's contents before
the call; the result is its contents after the call.  Note the source writes
`out[0]=gamma, out[1]=beta, out[2]=alpha` and has no else branch on the unit
selector: an unrecognized selector leaves `out` untouched and returns it. -/
noncomputable def quaternionToEuler (out : Fin 3 → ℝ) (quat : Fin 4 → ℝ)
    (degOrRad : String) : Fin 3 → ℝ :=
  let x := quat 0
  let y := quat 1
  let z := quat 2
  let w := quat 3
  let sinr_cosp := 2 * (w * x + y * z)
  let cosr_cosp := 1 - 2 * (x * x + y * y)
  let alpha := atan2 sinr_cosp cosr_cosp
  let sinp := 2 * (w * y - z * x)
  let beta := if 1 ≤ |sinp| then Real.sign sinp * (Real.pi / 2) else Real.arcsin sinp
  let siny_cosp := 2 * (w * z + x * y)
  let cosy_cosp := 1 - 2 * (y * y + z * z)
  let gamma := atan2 siny_cosp cosy_cosp
  if degOrRad = "deg" then ![toDegree gamma, toDegree beta, toDegree alpha]
  else if degOrRad = "rad" then ![gamma, beta, alpha]
  else out

/-- conversion.js quaternionToAxisAngle.  Returns (thrown error if any,
final contents of the out vec4, final contents of the caller's quaternion).
The quaternion is normalized in place and out[0..2] receive the axis before
the unit selector is examined; on an unrecognized selector the function
throws with out[3] still holding its prior contents. -/
noncomputable def quaternionToAxisAngle (out : Fin 4 → ℝ) (q : Fin 4 → ℝ)
    (degOrRad : String) : Option RotError × (Fin 4 → ℝ) × (Fin 4 → ℝ) :=
  let q1 := quatNormalize q
  let aa := quatGetAxisAngle q1
  let axis := aa.1
  let angle := aa.2
  if degOrRad = "deg" then (none, ![axis 0, axis 1, axis 2, toDegree angle], q1)
  else if degOrRad = "rad" then (none, ![axis 0, axis 1, axis 2, angle], q1)
  else (some (RotError.invalidUnit "quaternionToAxisAngle"),
        ![axis 0, axis 1, axis 2, out 3], q1)

/-- conversion.js quaternionToMatrix.  Returns (the returned matrix, the final
contents of the caller's quaternion).  The chained equality test
`q[0]===q[1] && q[1]===q[2] && q[2]===0` short-circuits to the identity matrix
without touching q. -/
noncomputable def quaternionToMatrix (q : Fin 4 → ℝ) : (Fin 9 → ℝ) × (Fin 4 → ℝ) :=
  if q 0 = q 1 ∧ q 1 = q 2 ∧ q 2 = 0 then (mat3Create, q)
  else
    let q1 := quatNormalize q
    (mat3FromQuat q1, q1)

/-- conversion.js axisAngleToQuaternion.  No observable state survives a
throw, so the result is a plain `Except`. -/
noncomputable def axisAngleToQuaternion (x y z angle : ℝ) (degOrRad : String) :
    Except RotError (Fin 4 → ℝ) :=
  let axis := vec3Normalize ![x, y, z]
  if degOrRad = "deg" then
    Except.ok (quatNormalize (quatSetAxisAngle axis (toRadian angle)))
  else if degOrRad = "rad" then
    Except.ok (quatNormalize (quatSetAxisAngle axis angle))
  else Except.error (RotError.invalidUnit "axisAngleToQuaternion")

/-- conversion.js eulerToQuaternion.  The degree path hands
(gamma, beta, alpha) to quat.fromEuler; the radian path converts each angle
to degrees first and hands the converted (gamma, beta, alpha) to the same
degree-based builder. -/
noncomputable def eulerToQuaternion (alpha beta gamma : ℝ) (degOrRad : String) :
    Except RotError (Fin 4 → ℝ) :=
  if degOrRad = "deg" then
    Except.ok (quatNormalize (quatFromEulerZYX gamma beta alpha))
  else if degOrRad = "rad" then
    Except.ok (quatNormalize
      (quatFromEulerZYX (toDegree gamma) (toDegree beta) (toDegree alpha)))
  else Except.error (RotError.invalidUnit "eulerToQuaternion")

/-- conversion.js matrixToAxisAngle (direct path).  Returns (thrown error if
any, final contents of the out vec4).  out[0..2] receive the axis before the
unit selector is examined; on an unrecognized selector the function throws
with out[3] still holding its prior contents. -/
noncomputable def matrixToAxisAngle (out : Fin 4 → ℝ) (m : Fin 9 → ℝ)
    (degOrRad : String) : Option RotError × (Fin 4 → ℝ) :=
  let trace := m 0 + m 4 + m 8
  let angle := Real.arccos (min (max ((trace - 1) / 2) (-1)) 1)
  let axis : Fin 3 → ℝ :=
    if |angle| < 1e-6 then ![1, 0, 0]
    else if |Real.pi - angle| < 1e-6 then
      if m 0 ≥ m 4 ∧ m 0 ≥ m 8 then
        let x := Real.sqrt ((m 0 + 1) / 2)
        ![x, m 3 / (2 * x), m 6 / (2 * x)]
      else if m 4 ≥ m 0 ∧ m 4 ≥ m 8 then
        let y := Real.sqrt ((m 4 + 1) / 2)
        ![m 3 / (2 * y), y, m 7 / (2 * y)]
      else
        let z := Real.sqrt ((m 8 + 1) / 2)
        ![m 6 / (2 * z), m 7 / (2 * z), z]
    else
      let s := 2 * Real.sin angle
      ![(m 5 - m 7) / s, (m 6 - m 2) / s, (m 1 - m 3) / s]
  if degOrRad = "deg" then (none, ![axis 0, axis 1, axis 2, toDegree angle])
  else if degOrRad = "rad" then (none, ![axis 0, axis 1, axis 2, angle])
  else (some (RotError.invalidUnit "matrixToAxisAngle"),
        ![axis 0, axis 1, axis 2, out 3])

/-- Spec formula (§4.1): alpha = atan2(2(wx+yz), 1 − 2(x²+y²)). -/
noncomputable def specAlpha (q : Fin 4 → ℝ) : ℝ :=
  atan2 (2 * (q 3 * q 0 + q 1 * q 2)) (1 - 2 * (q 0 ^ 2 + q 1 ^ 2))

/-- Spec formula (§4.1): beta = asin(clamp(2(wy − zx), −1, 1)). -/
noncomputable def specBeta (q : Fin 4 → ℝ) : ℝ :=
  Real.arcsin (min (max (2 * (q 3 * q 1 - q 2 * q 0)) (-1)) 1)

/-- Spec formula (§4.1): gamma = atan2(2(wz+xy), 1 − 2(y²+z²)). -/
noncomputable def specGamma (q : Fin 4 → ℝ) : ℝ :=
  atan2 (2 * (q 3 * q 2 + q 0 * q 1)) (1 - 2 * (q 1 ^ 2 + q 2 ^ 2))

/-- The normalized form of a quaternion: each component divided by the norm. -/
noncomputable def normalizedForm (q : Fin 4 → ℝ) : Fin 4 → ℝ :=
  fun i => q i / Real.sqrt (q 0 * q 0 + q 1 * q 1 + q 2 * q 2 + q 3 * q 3)

@[simp] lemma vec4_at0 (a b c d : ℝ) : (![a, b, c, d] : Fin 4 → ℝ) 0 = a := rfl

@[simp] lemma vec4_at1 (a b c d : ℝ) : (![a, b, c, d] : Fin 4 → ℝ) 1 = b := rfl

@[simp] lemma vec4_at2 (a b c d : ℝ) : (![a, b, c, d] : Fin 4 → ℝ) 2 = c := rfl

@[simp] lemma vec4_at3 (a b c d : ℝ) : (![a, b, c, d] : Fin 4 → ℝ) 3 = d := rfl

@[simp] lemma vec3_at0 (a b c : ℝ) : (![a, b, c] : Fin 3 → ℝ) 0 = a := rfl

@[simp] lemma vec3_at1 (a b c : ℝ) : (![a, b, c] : Fin 3 → ℝ) 1 = b := rfl

@[simp] lemma vec3_at2 (a b c : ℝ) : (![a, b, c] : Fin 3 → ℝ) 2 = c := rfl

lemma toRadian_toDegree (a : ℝ) : toRadian (toDegree a) = a := by
  unfold toRadian toDegree
  field_simp

lemma vec3Normalize_of_unit {a : Fin 3 → ℝ}
    (h : a 0 * a 0 + a 1 * a 1 + a 2 * a 2 = 1) : vec3Normalize a = a := by
  funext i
  simp only [vec3Normalize, h]
  rw [if_pos one_pos, Real.sqrt_one]
  norm_num
  fin_cases i <;> rfl

lemma quatNormalize_of_unit {a : Fin 4 → ℝ}
    (h : a 0 * a 0 + a 1 * a 1 + a 2 * a 2 + a 3 * a 3 = 1) : quatNormalize a = a := by
  funext i
  simp only [quatNormalize, h]
  rw [if_pos one_pos, Real.sqrt_one]
  norm_num
  fin_cases i <;> rfl

lemma vec3Normalize_zeroVec : vec3Normalize ![0, 0, 0] = ![0, 0, 0] := by
  funext i
  simp only [vec3Normalize]
  norm_num

lemma quatSetAxisAngle_zeroAxis (rad : ℝ) :
    quatSetAxisAngle ![0, 0, 0] rad = ![0, 0, 0, Real.cos (rad * 0.5)] := by
  funext i
  simp only [quatSetAxisAngle]
  fin_cases i <;> norm_num

/-- C1 counterexample: with the unrecognized unit selector "grad",
quaternionToEuler does not throw; it silently returns the out buffer
unchanged, because the source has no else branch on the selector.  This
refutes the claim that every unit-consuming function (including
quaternionToEuler) fails with InvalidUnit on an unrecognized unit. -/
theorem quaternionToEuler_grad_silent_cex :
    quaternionToEuler ![1, 2, 3] ![0, 0, 0, 1] "grad" = ![1, 2, 3] := by
  simp [quaternionToEuler]

/-- C1 (amended): for every unit selector other than "deg" and "rad",
quaternionToAxisAngle, axisAngleToQuaternion, eulerToQuaternion and
matrixToAxisAngle all fail with InvalidUnit, while quaternionToEuler silently
returns its out buffer unchanged (no error path exists for it). -/
theorem invalidUnit_behavior_amended (out3 : Fin 3 → ℝ) (out4 out4' : Fin 4 → ℝ)
    (q : Fin 4 → ℝ) (m : Fin 9 → ℝ) (x y z angle a b g : ℝ) (u : String)
    (h1 : u ≠ "deg") (h2 : u ≠ "rad") :
    quaternionToEuler out3 q u = out3
    ∧ (quaternionToAxisAngle out4 q u).1
        = some (RotError.invalidUnit "quaternionToAxisAngle")
    ∧ axisAngleToQuaternion x y z angle u
        = Except.error (RotError.invalidUnit "axisAngleToQuaternion")
    ∧ eulerToQuaternion a b g u
        = Except.error (RotError.invalidUnit "eulerToQuaternion")
    ∧ (matrixToAxisAngle out4' m u).1
        = some (RotError.invalidUnit "matrixToAxisAngle") := by
  refine ⟨?_, ?_, ?_, ?_, ?_⟩ <;>
    simp [quaternionToEuler, quaternionToAxisAngle, axisAngleToQuaternion,
      eulerToQuaternion, matrixToAxisAngle, h1, h2]

/-- Witness for the amended C1 theorem at the concrete selector "grad". -/
theorem invalidUnit_behavior_amended_witness :
    ("grad" : String) ≠ "deg" ∧ ("grad" : String) ≠ "rad"
    ∧ (quaternionToAxisAngle ![0, 0, 0, 0] ![0, 0, 0, 1] "grad").1
        = some (RotError.invalidUnit "quaternionToAxisAngle")
    ∧ eulerToQuaternion 1 2 3 "grad"
        = Except.error (RotError.invalidUnit "eulerToQuaternion") := by
  have H := invalidUnit_behavior_amended ![0, 0, 0] ![0, 0, 0, 0] ![0, 0, 0, 0]
    ![0, 0, 0, 1] (fun _ => 0) 0 0 0 0 1 2 3 "grad" (by decide) (by decide)
  exact ⟨by decide, by decide, H.2.1, H.2.2.2.1⟩

/-- C2 counterexample: with the zero axis and angle 0, axisAngleToQuaternion
succeeds and returns the identity quaternion rather than failing with
InvalidAxis (no InvalidAxis check exists in the source; glMatrix's normalize
guard leaves the zero axis as the zero vector). -/
theorem axisAngleToQuaternion_zeroAxis_cex :
    axisAngleToQuaternion 0 0 0 0 "rad" = Except.ok ![0, 0, 0, 1] := by
  have hne : ¬ ("rad" : String) = "deg" := by decide
  simp only [axisAngleToQuaternion, vec3Normalize_zeroVec, quatSetAxisAngle_zeroAxis,
    if_neg hne, if_pos rfl]
  rw [show Real.cos ((0:ℝ) * 0.5) = 1 by norm_num]
  rw [quatNormalize_of_unit (by norm_num)]
  simp

/-- C2 (amended): for every angle and either valid unit selector,
axisAngleToQuaternion with the zero axis does not fail: the zero axis
survives glMatrix's guarded normalize unchanged, and the function returns the
normalization of (0, 0, 0, cos(half-angle)).  No InvalidAxis error is ever
raised (the source contains no such check). -/
theorem axisAngleToQuaternion_zeroAxis_amended (angle : ℝ) :
    axisAngleToQuaternion 0 0 0 angle "rad"
        = Except.ok (quatNormalize ![0, 0, 0, Real.cos (angle * 0.5)])
    ∧ axisAngleToQuaternion 0 0 0 angle "deg"
        = Except.ok (quatNormalize ![0, 0, 0, Real.cos (toRadian angle * 0.5)]) := by
  constructor <;>
    simp [axisAngleToQuaternion, vec3Normalize_zeroVec, quatSetAxisAngle_zeroAxis]

/-- C4: on the column-major matrix diag(-1, 1, -1) (a 180-degree rotation
about the y axis) with unit "rad", matrixToAxisAngle takes the near-180
branch, pivots on the largest diagonal entry m[4], and returns exactly
axis (0, 1, 0) and angle pi. -/
theorem matrixToAxisAngle_rot180_about_y (out : Fin 4 → ℝ) :
    matrixToAxisAngle out ![-1, 0, 0, 0, 1, 0, 0, 0, -1] "rad"
      = (none, ![0, 1, 0, Real.pi]) := by
  have h0 : (![(-1:ℝ), 0, 0, 0, 1, 0, 0, 0, -1] : Fin 9 → ℝ) 0 = -1 := rfl
  have h1 : (![(-1:ℝ), 0, 0, 0, 1, 0, 0, 0, -1] : Fin 9 → ℝ) 1 = 0 := rfl
  have h2 : (![(-1:ℝ), 0, 0, 0, 1, 0, 0, 0, -1] : Fin 9 → ℝ) 2 = 0 := rfl
  have h3 : (![(-1:ℝ), 0, 0, 0, 1, 0, 0, 0, -1] : Fin 9 → ℝ) 3 = 0 := rfl
  have h4 : (![(-1:ℝ), 0, 0, 0, 1, 0, 0, 0, -1] : Fin 9 → ℝ) 4 = 1 := rfl
  have h5 : (![(-1:ℝ), 0, 0, 0, 1, 0, 0, 0, -1] : Fin 9 → ℝ) 5 = 0 := rfl
  have h6 : (![(-1:ℝ), 0, 0, 0, 1, 0, 0, 0, -1] : Fin 9 → ℝ) 6 = 0 := rfl
  have h7 : (![(-1:ℝ), 0, 0, 0, 1, 0, 0, 0, -1] : Fin 9 → ℝ) 7 = 0 := rfl
  have h8 : (![(-1:ℝ), 0, 0, 0, 1, 0, 0, 0, -1] : Fin 9 → ℝ) 8 = -1 := rfl
  have hclamp : min (max ((-1 + 1 + -1 - (1:ℝ)) / 2) (-1)) 1 = -1 := by norm_num
  simp only [matrixToAxisAngle, h0, h1, h2, h3, h4, h5, h6, h7, h8, hclamp,
    Real.arccos_neg_one]
  have hpi1 : ¬ |Real.pi| < 1e-6 := by
    rw [abs_of_nonneg Real.pi_nonneg]
    push_neg
    nlinarith [Real.pi_gt_three]
  have hpi2 : |Real.pi - Real.pi| < 1e-6 := by
    rw [sub_self, abs_zero]
    norm_num
  have hd1 : ¬ ((-1:ℝ) ≥ 1 ∧ (-1:ℝ) ≥ -1) := by norm_num
  have hd2 : (1:ℝ) ≥ -1 ∧ (1:ℝ) ≥ -1 := by norm_num
  have hsq : Real.sqrt ((1 + 1) / 2) = 1 := by
    rw [show ((1:ℝ) + 1) / 2 = 1 by norm_num, Real.sqrt_one]
  have hne : ¬ ("rad" : String) = "deg" := by decide
  simp only [if_neg hpi1, if_pos hpi2, if_neg hd1, if_pos hd2, hsq, if_neg hne, if_pos rfl]
  norm_num

lemma quatNormalize_of_ne_zero {q : Fin 4 → ℝ}
    (hq : ¬(q 0 = 0 ∧ q 1 = 0 ∧ q 2 = 0 ∧ q 3 = 0)) :
    quatNormalize q = normalizedForm q := by
  have hlen : 0 < q 0 * q 0 + q 1 * q 1 + q 2 * q 2 + q 3 * q 3 := by
    by_contra hle
    push_neg at hle
    have h0 := mul_self_nonneg (q 0)
    have h1 := mul_self_nonneg (q 1)
    have h2 := mul_self_nonneg (q 2)
    have h3 := mul_self_nonneg (q 3)
    exact hq ⟨mul_self_eq_zero.mp (by linarith), mul_self_eq_zero.mp (by linarith),
      mul_self_eq_zero.mp (by linarith), mul_self_eq_zero.mp (by linarith)⟩
  funext i
  simp only [quatNormalize, normalizedForm, if_pos hlen]
  fin_cases i <;> simp [div_eq_mul_inv, one_div]

/-- C8: quaternionToMatrix short-circuits to the identity matrix leaving the
caller's quaternion untouched exactly when x = y = z = 0 (any w, including
w = 0); on every other quaternion it normalizes the caller's quaternion in
place and applies the standard closed form.  Its total result type shows it
never fails. -/
theorem quaternionToMatrix_cases (q : Fin 4 → ℝ) :
    ((q 0 = 0 ∧ q 1 = 0 ∧ q 2 = 0) → quaternionToMatrix q = (mat3Create, q))
    ∧ (¬(q 0 = 0 ∧ q 1 = 0 ∧ q 2 = 0) →
        quaternionToMatrix q = (mat3FromQuat (quatNormalize q), quatNormalize q)) := by
  constructor
  · rintro ⟨h0, h1, h2⟩
    simp [quaternionToMatrix, h0, h1, h2]
  · intro h
    have hc : ¬(q 0 = q 1 ∧ q 1 = q 2 ∧ q 2 = 0) := by
      rintro ⟨e1, e2, e3⟩
      exact h ⟨by rw [e1, e2, e3], by rw [e2, e3], e3⟩
    simp [quaternionToMatrix, if_neg hc]

/-- Witness for C8 at the all-zero quaternion (w = 0 included): the
short-circuit branch returns the identity matrix and the quaternion object is
left unmodified. -/
theorem quaternionToMatrix_cases_witness :
    quaternionToMatrix ![0, 0, 0, 0] = (mat3Create, ![0, 0, 0, 0]) :=
  (quaternionToMatrix_cases ![0, 0, 0, 0]).1 ⟨rfl, rfl, rfl⟩

lemma quaternionToAxisAngle_q_state (out q : Fin 4 → ℝ) (u : String) :
    (quaternionToAxisAngle out q u).2.2 = quatNormalize q := by
  simp only [quaternionToAxisAngle]
  split
  · rfl
  · split <;> rfl

/-- C9: for every non-zero quaternion and valid unit selector,
quaternionToAxisAngle leaves the caller's quaternion holding the normalized
form of its original value (each component divided by the original norm), and
quaternionToMatrix does the same on its non-short-circuit path. -/
theorem inplace_normalization (out : Fin 4 → ℝ) (q : Fin 4 → ℝ) (u : String)
    (hq : ¬(q 0 = 0 ∧ q 1 = 0 ∧ q 2 = 0 ∧ q 3 = 0))
    (_hu : u = "deg" ∨ u = "rad") :
    (quaternionToAxisAngle out q u).2.2 = normalizedForm q
    ∧ (¬(q 0 = 0 ∧ q 1 = 0 ∧ q 2 = 0) →
        (quaternionToMatrix q).2 = normalizedForm q) := by
  constructor
  · rw [quaternionToAxisAngle_q_state, quatNormalize_of_ne_zero hq]
  · intro h3
    rw [(quaternionToMatrix_cases q).2 h3]
    exact quatNormalize_of_ne_zero hq

/-- Witness for C9 at q = (0,0,0,2) with unit "rad": the caller's quaternion
ends up holding (0,0,0,1) = q divided by its norm 2. -/
theorem inplace_normalization_witness :
    ¬((0:ℝ) = 0 ∧ (0:ℝ) = 0 ∧ (0:ℝ) = 0 ∧ (2:ℝ) = 0)
    ∧ (quaternionToAxisAngle ![0, 0, 0, 0] ![0, 0, 0, 2] "rad").2.2
        = normalizedForm ![0, 0, 0, 2] := by
  refine ⟨by norm_num, ?_⟩
  exact (inplace_normalization ![0, 0, 0, 0] ![0, 0, 0, 2] "rad"
    (by norm_num) (Or.inr rfl)).1

/-- C10: when quaternionToAxisAngle or matrixToAxisAngle fails on an
unrecognized unit selector, the failure is not atomic: out[0..2] already hold
the computed axis (the same values a successful "rad" call computes), the
caller's quaternion has already been normalized in place, and only out[3]
keeps its prior contents. -/
theorem nonatomic_invalidUnit_failure (out4 out4m : Fin 4 → ℝ) (q : Fin 4 → ℝ)
    (m : Fin 9 → ℝ) (u : String) (h1 : u ≠ "deg") (h2 : u ≠ "rad") :
    ((quaternionToAxisAngle out4 q u).1
        = some (RotError.invalidUnit "quaternionToAxisAngle")
    ∧ (quaternionToAxisAngle out4 q u).2.2 = quatNormalize q
    ∧ (∀ i : Fin 4, i ≠ 3 → (quaternionToAxisAngle out4 q u).2.1 i
        = (quaternionToAxisAngle out4 q "rad").2.1 i)
    ∧ (quaternionToAxisAngle out4 q u).2.1 3 = out4 3)
    ∧ ((matrixToAxisAngle out4m m u).1
        = some (RotError.invalidUnit "matrixToAxisAngle")
    ∧ (∀ i : Fin 4, i ≠ 3 → (matrixToAxisAngle out4m m u).2 i
        = (matrixToAxisAngle out4m m "rad").2 i)
    ∧ (matrixToAxisAngle out4m m u).2 3 = out4m 3) := by
  have hrne : ¬ ("rad" : String) = "deg" := by decide
  refine ⟨⟨?_, ?_, ?_, ?_⟩, ?_, ?_, ?_⟩ <;>
    simp only [quaternionToAxisAngle, matrixToAxisAngle, if_neg h1, if_neg h2,
      if_neg hrne, if_pos rfl, if_true] <;>
    try rfl
  all_goals
    intro i hi
    fin_cases i <;> first | exact absurd rfl hi | rfl

/-- Witness for C10 at selector "grad": out[3] keeps its prior value 5 in both
functions while the axis slots were already written. -/
theorem nonatomic_invalidUnit_failure_witness :
    ("grad" : String) ≠ "deg" ∧ ("grad" : String) ≠ "rad"
    ∧ (quaternionToAxisAngle ![5, 5, 5, 5] ![1, 0, 0, 0] "grad").2.1 3 = 5
    ∧ (matrixToAxisAngle ![5, 5, 5, 5] mat3Create "grad").2 3 = 5 := by
  have H := nonatomic_invalidUnit_failure ![5, 5, 5, 5] ![5, 5, 5, 5] ![1, 0, 0, 0]
    mat3Create "grad" (by decide) (by decide)
  refine ⟨by decide, by decide, ?_, ?_⟩
  · rw [H.1.2.2.2]
    rfl
  · rw [H.2.2.2]
    rfl

lemma betaBranch_eq_arcsin_clamp (p : ℝ) :
    (if 1 ≤ |p| then Real.sign p * (Real.pi / 2) else Real.arcsin p)
      = Real.arcsin (min (max p (-1)) 1) := by
  rcases le_or_lt 1 |p| with h | h
  · rw [if_pos h]
    rcases le_abs.mp h with hp | hp
    · rw [Real.sign_of_pos (lt_of_lt_of_le one_pos hp),
        max_eq_left (le_trans (by norm_num) hp), min_eq_right hp, Real.arcsin_one]
      ring
    · have hp' : p ≤ -1 := by linarith
      rw [Real.sign_of_neg (by linarith), max_eq_right hp',
        min_eq_left (by norm_num), Real.arcsin_neg_one]
      ring
  · rw [if_neg (not_le.mpr h)]
    rcases abs_lt.mp h with ⟨hl, hr⟩
    rw [max_eq_left hl.le, min_eq_left hr.le]

/-- C6: for every quaternion and either valid unit selector, quaternionToEuler
computes alpha, beta and gamma by the spec's closed-form formulas (with beta
equal to asin of the clamped sine term) and writes them in Z-Y-X component
order: out[0] = gamma, out[1] = beta, out[2] = alpha, degree-converted when
"deg" is selected. -/
theorem quaternionToEuler_formulas_order (out : Fin 3 → ℝ) (q : Fin 4 → ℝ) :
    quaternionToEuler out q "rad" = ![specGamma q, specBeta q, specAlpha q]
    ∧ quaternionToEuler out q "deg"
        = ![toDegree (specGamma q), toDegree (specBeta q), toDegree (specAlpha q)] := by
  have hne : ¬ ("rad" : String) = "deg" := by decide
  have ha : atan2 (2 * (q 3 * q 0 + q 1 * q 2)) (1 - 2 * (q 0 * q 0 + q 1 * q 1))
      = specAlpha q := by
    unfold specAlpha
    congr 1
    ring
  have hg : atan2 (2 * (q 3 * q 2 + q 0 * q 1)) (1 - 2 * (q 1 * q 1 + q 2 * q 2))
      = specGamma q := by
    unfold specGamma
    congr 1
    ring
  have hb : (if 1 ≤ |2 * (q 3 * q 1 - q 2 * q 0)| then
        Real.sign (2 * (q 3 * q 1 - q 2 * q 0)) * (Real.pi / 2)
      else Real.arcsin (2 * (q 3 * q 1 - q 2 * q 0))) = specBeta q :=
    betaBranch_eq_arcsin_clamp (2 * (q 3 * q 1 - q 2 * q 0))
  constructor <;>
    simp only [quaternionToEuler, if_neg hne, if_pos rfl, if_true] <;>
    rw [ha, hg, hb]

/-- C5: whenever the raw sine term 2(wy − zx) has magnitude at least 1,
quaternionToEuler writes beta = sign(sinp)·(π/2) (degree-converted when "deg"
is selected) instead of evaluating asin outside its domain. -/
theorem quaternionToEuler_gimbal_clamp (out : Fin 3 → ℝ) (q : Fin 4 → ℝ)
    (h : 1 ≤ |2 * (q 3 * q 1 - q 2 * q 0)|) :
    quaternionToEuler out q "rad" 1
        = Real.sign (2 * (q 3 * q 1 - q 2 * q 0)) * (Real.pi / 2)
    ∧ quaternionToEuler out q "deg" 1
        = toDegree (Real.sign (2 * (q 3 * q 1 - q 2 * q 0)) * (Real.pi / 2)) := by
  have hne : ¬ ("rad" : String) = "deg" := by decide
  constructor <;>
    simp only [quaternionToEuler, if_neg hne, if_pos rfl, if_true, if_pos h] <;>
    simp

/-- Witness for C5 at the quaternion of a +90 degree rotation about Y,
(0, √2/2, 0, √2/2): the raw sine term is exactly 1 and beta comes out as π/2
("rad") and 90 ("deg"). -/
theorem quaternionToEuler_gimbal_clamp_witness :
    1 ≤ |2 * ((![0, Real.sqrt 2 / 2, 0, Real.sqrt 2 / 2] : Fin 4 → ℝ) 3
          * (![0, Real.sqrt 2 / 2, 0, Real.sqrt 2 / 2] : Fin 4 → ℝ) 1
        - (![0, Real.sqrt 2 / 2, 0, Real.sqrt 2 / 2] : Fin 4 → ℝ) 2
          * (![0, Real.sqrt 2 / 2, 0, Real.sqrt 2 / 2] : Fin 4 → ℝ) 0)|
    ∧ quaternionToEuler ![0, 0, 0] ![0, Real.sqrt 2 / 2, 0, Real.sqrt 2 / 2] "rad" 1
        = Real.pi / 2
    ∧ quaternionToEuler ![0, 0, 0] ![0, Real.sqrt 2 / 2, 0, Real.sqrt 2 / 2] "deg" 1
        = 90 := by
  have hsinp : 2 * ((![0, Real.sqrt 2 / 2, 0, Real.sqrt 2 / 2] : Fin 4 → ℝ) 3
          * (![0, Real.sqrt 2 / 2, 0, Real.sqrt 2 / 2] : Fin 4 → ℝ) 1
        - (![0, Real.sqrt 2 / 2, 0, Real.sqrt 2 / 2] : Fin 4 → ℝ) 2
          * (![0, Real.sqrt 2 / 2, 0, Real.sqrt 2 / 2] : Fin 4 → ℝ) 0) = 1 := by
    simp only [vec4_at0, vec4_at1, vec4_at2, vec4_at3]
    rw [show Real.sqrt 2 / 2 * (Real.sqrt 2 / 2)
        = Real.sqrt 2 * Real.sqrt 2 / 4 by ring]
    rw [Real.mul_self_sqrt (by norm_num)]
    norm_num
  have h1 : 1 ≤ |2 * ((![0, Real.sqrt 2 / 2, 0, Real.sqrt 2 / 2] : Fin 4 → ℝ) 3
          * (![0, Real.sqrt 2 / 2, 0, Real.sqrt 2 / 2] : Fin 4 → ℝ) 1
        - (![0, Real.sqrt 2 / 2, 0, Real.sqrt 2 / 2] : Fin 4 → ℝ) 2
          * (![0, Real.sqrt 2 / 2, 0, Real.sqrt 2 / 2] : Fin 4 → ℝ) 0)| := by
    rw [hsinp]
    norm_num
  have H := quaternionToEuler_gimbal_clamp ![0, 0, 0]
    ![0, Real.sqrt 2 / 2, 0, Real.sqrt 2 / 2] h1
  refine ⟨h1, ?_, ?_⟩
  · rw [H.1, hsinp, Real.sign_one, one_mul]
  · rw [H.2, hsinp, Real.sign_one, one_mul]
    unfold toDegree
    field_simp
    ring

/-- C7: the radian path of eulerToQuaternion equals the degree path applied to
the degree-converted angles (there is no radian-native build), the shared
degree-based zyx builder receives its three angle arguments in the reversed
order (gamma, beta, alpha), and the builder's output is exactly unit-norm, so
the two paths agree exactly (hence within any tolerance). -/
theorem eulerToQuaternion_rad_deg_parity (alpha beta gamma : ℝ) :
    eulerToQuaternion alpha beta gamma "rad"
        = eulerToQuaternion (toDegree alpha) (toDegree beta) (toDegree gamma) "deg"
    ∧ eulerToQuaternion alpha beta gamma "deg"
        = Except.ok (quatNormalize (quatFromEulerZYX gamma beta alpha))
    ∧ quatFromEulerZYX gamma beta alpha 0 * quatFromEulerZYX gamma beta alpha 0
      + quatFromEulerZYX gamma beta alpha 1 * quatFromEulerZYX gamma beta alpha 1
      + quatFromEulerZYX gamma beta alpha 2 * quatFromEulerZYX gamma beta alpha 2
      + quatFromEulerZYX gamma beta alpha 3 * quatFromEulerZYX gamma beta alpha 3
      = 1 := by
  have hne : ¬ ("rad" : String) = "deg" := by decide
  refine ⟨?_, ?_, ?_⟩
  · simp only [eulerToQuaternion, if_neg hne, if_pos rfl, if_true]
  · simp only [eulerToQuaternion, if_pos rfl, if_true]
  · simp only [quatFromEulerZYX, vec4_at0, vec4_at1, vec4_at2, vec4_at3]
    have key : ∀ sx cx sy cy sz cz : ℝ,
        (sx * cy * cz - cx * sy * sz) * (sx * cy * cz - cx * sy * sz)
        + (cx * sy * cz + sx * cy * sz) * (cx * sy * cz + sx * cy * sz)
        + (cx * cy * sz - sx * sy * cz) * (cx * cy * sz - sx * sy * cz)
        + (cx * cy * cz + sx * sy * sz) * (cx * cy * cz + sx * sy * sz)
        = (sx ^ 2 + cx ^ 2) * ((sy ^ 2 + cy ^ 2) * (sz ^ 2 + cz ^ 2)) := by
      intro sx cx sy cy sz cz
      ring
    rw [key, Real.sin_sq_add_cos_sq, Real.sin_sq_add_cos_sq, Real.sin_sq_add_cos_sq]
    norm_num

lemma quaternionToAxisAngle_deg_eq (out q : Fin 4 → ℝ) :
    quaternionToAxisAngle out q "deg"
      = (none, ![(quatGetAxisAngle (quatNormalize q)).1 0,
          (quatGetAxisAngle (quatNormalize q)).1 1,
          (quatGetAxisAngle (quatNormalize q)).1 2,
          toDegree (quatGetAxisAngle (quatNormalize q)).2], quatNormalize q) := by
  simp only [quaternionToAxisAngle, if_true]

lemma quaternionToAxisAngle_rad_eq (out q : Fin 4 → ℝ) :
    quaternionToAxisAngle out q "rad"
      = (none, ![(quatGetAxisAngle (quatNormalize q)).1 0,
          (quatGetAxisAngle (quatNormalize q)).1 1,
          (quatGetAxisAngle (quatNormalize q)).1 2,
          (quatGetAxisAngle (quatNormalize q)).2], quatNormalize q) := by
  simp only [quaternionToAxisAngle, if_true]
  rw [if_neg (by decide : ¬ ("rad" : String) = "deg")]

lemma axisAngleToQuaternion_deg_eq (x y z angle : ℝ) :
    axisAngleToQuaternion x y z angle "deg"
      = Except.ok (quatNormalize
          (quatSetAxisAngle (vec3Normalize ![x, y, z]) (toRadian angle))) := by
  simp only [axisAngleToQuaternion, if_true]

lemma axisAngleToQuaternion_rad_eq (x y z angle : ℝ) :
    axisAngleToQuaternion x y z angle "rad"
      = Except.ok (quatNormalize
          (quatSetAxisAngle (vec3Normalize ![x, y, z]) angle)) := by
  simp only [axisAngleToQuaternion, if_true]
  rw [if_neg (by decide : ¬ ("rad" : String) = "deg")]

lemma roundtrip_core (q : Fin 4 → ℝ)
    (hq : q 0 * q 0 + q 1 * q 1 + q 2 * q 2 + q 3 * q 3 = 1) :
    ∀ i, |quatNormalize (quatSetAxisAngle
        (vec3Normalize ![(quatGetAxisAngle q).1 0, (quatGetAxisAngle q).1 1,
          (quatGetAxisAngle q).1 2]) ((quatGetAxisAngle q).2)) i - q i| ≤ 1e-4 := by
  have h00 := mul_self_nonneg (q 0)
  have h11 := mul_self_nonneg (q 1)
  have h22 := mul_self_nonneg (q 2)
  have hw2 : q 3 * q 3 ≤ 1 := by nlinarith
  have hwle : q 3 ≤ 1 := by nlinarith [sq_nonneg (q 3 - 1)]
  have hwge : -1 ≤ q 3 := by nlinarith [sq_nonneg (q 3 + 1)]
  have hsin : Real.sin (Real.arccos (q 3) * 2 / 2) = Real.sqrt (1 - q 3 ^ 2) := by
    rw [show Real.arccos (q 3) * 2 / 2 = Real.arccos (q 3) by ring, Real.sin_arccos]
  have hs_nonneg : 0 ≤ Real.sin (Real.arccos (q 3) * 2 / 2) := by
    rw [hsin]
    exact Real.sqrt_nonneg _
  have hs_sq : Real.sin (Real.arccos (q 3) * 2 / 2) ^ 2 = 1 - q 3 ^ 2 := by
    rw [hsin]
    exact Real.sq_sqrt (by nlinarith)
  have hcos : Real.cos (Real.arccos (q 3) * 2 * 0.5) = q 3 := by
    rw [show Real.arccos (q 3) * 2 * 0.5 = Real.arccos (q 3) by ring]
    exact Real.cos_arccos hwge hwle
  have hsin05 : Real.sin (Real.arccos (q 3) * 2 * 0.5)
      = Real.sin (Real.arccos (q 3) * 2 / 2) := by
    rw [show Real.arccos (q 3) * 2 * 0.5 = Real.arccos (q 3) * 2 / 2 by ring]
  by_cases hcase : glEPSILON < Real.sin (Real.arccos (q 3) * 2 / 2)
  · have hs_pos : 0 < Real.sin (Real.arccos (q 3) * 2 / 2) :=
      lt_trans (by norm_num [glEPSILON]) hcase
    have hs_ne : Real.sin (Real.arccos (q 3) * 2 / 2) ≠ 0 := ne_of_gt hs_pos
    have hax : quatGetAxisAngle q
        = (![q 0 / Real.sin (Real.arccos (q 3) * 2 / 2),
            q 1 / Real.sin (Real.arccos (q 3) * 2 / 2),
            q 2 / Real.sin (Real.arccos (q 3) * 2 / 2)], Real.arccos (q 3) * 2) := by
      simp only [quatGetAxisAngle]
      rw [if_pos hcase]
    have hax1 : (quatGetAxisAngle q).1
        = ![q 0 / Real.sin (Real.arccos (q 3) * 2 / 2),
            q 1 / Real.sin (Real.arccos (q 3) * 2 / 2),
            q 2 / Real.sin (Real.arccos (q 3) * 2 / 2)] := by rw [hax]
    have hax2 : (quatGetAxisAngle q).2 = Real.arccos (q 3) * 2 := by rw [hax]
    rw [hax1, hax2]
    simp only [vec3_at0, vec3_at1, vec3_at2]
    have hvn : vec3Normalize ![q 0 / Real.sin (Real.arccos (q 3) * 2 / 2),
        q 1 / Real.sin (Real.arccos (q 3) * 2 / 2),
        q 2 / Real.sin (Real.arccos (q 3) * 2 / 2)]
        = ![q 0 / Real.sin (Real.arccos (q 3) * 2 / 2),
            q 1 / Real.sin (Real.arccos (q 3) * 2 / 2),
            q 2 / Real.sin (Real.arccos (q 3) * 2 / 2)] := by
      apply vec3Normalize_of_unit
      simp only [vec3_at0, vec3_at1, vec3_at2]
      rw [div_mul_div_comm, div_mul_div_comm, div_mul_div_comm, div_add_div_same,
        div_add_div_same]
      rw [show q 0 * q 0 + q 1 * q 1 + q 2 * q 2
          = Real.sin (Real.arccos (q 3) * 2 / 2) * Real.sin (Real.arccos (q 3) * 2 / 2) by
        linear_combination hq - hs_sq]
      exact div_self (mul_ne_zero hs_ne hs_ne)
    rw [hvn]
    have hsaa : quatSetAxisAngle ![q 0 / Real.sin (Real.arccos (q 3) * 2 / 2),
        q 1 / Real.sin (Real.arccos (q 3) * 2 / 2),
        q 2 / Real.sin (Real.arccos (q 3) * 2 / 2)] (Real.arccos (q 3) * 2) = q := by
      funext i
      simp only [quatSetAxisAngle, hsin05, hcos, vec3_at0, vec3_at1, vec3_at2]
      fin_cases i
      · show Real.sin (Real.arccos (q 3) * 2 / 2)
          * (q 0 / Real.sin (Real.arccos (q 3) * 2 / 2)) = q 0
        rw [mul_comm, div_mul_cancel₀ _ hs_ne]
      · show Real.sin (Real.arccos (q 3) * 2 / 2)
          * (q 1 / Real.sin (Real.arccos (q 3) * 2 / 2)) = q 1
        rw [mul_comm, div_mul_cancel₀ _ hs_ne]
      · show Real.sin (Real.arccos (q 3) * 2 / 2)
          * (q 2 / Real.sin (Real.arccos (q 3) * 2 / 2)) = q 2
        rw [mul_comm, div_mul_cancel₀ _ hs_ne]
      · show q 3 = q 3
        rfl
    rw [hsaa, quatNormalize_of_unit hq]
    intro i
    rw [sub_self, abs_zero]
    norm_num
  · have hse : Real.sin (Real.arccos (q 3) * 2 / 2) ≤ glEPSILON := not_lt.mp hcase
    have hεval : glEPSILON ≤ 1e-4 / 2 := by norm_num [glEPSILON]
    have hax : quatGetAxisAngle q = (![1, 0, 0], Real.arccos (q 3) * 2) := by
      simp only [quatGetAxisAngle]
      rw [if_neg hcase]
    have hax1 : (quatGetAxisAngle q).1 = ![1, 0, 0] := by rw [hax]
    have hax2 : (quatGetAxisAngle q).2 = Real.arccos (q 3) * 2 := by rw [hax]
    rw [hax1, hax2]
    simp only [vec3_at0, vec3_at1, vec3_at2]
    have hvn : vec3Normalize ![(1:ℝ), 0, 0] = ![(1:ℝ), 0, 0] := by
      apply vec3Normalize_of_unit
      norm_num
    rw [hvn]
    have hsaa : quatSetAxisAngle ![(1:ℝ), 0, 0] (Real.arccos (q 3) * 2)
        = ![Real.sin (Real.arccos (q 3) * 2 / 2), 0, 0, q 3] := by
      funext i
      simp only [quatSetAxisAngle, hsin05, hcos, vec3_at0, vec3_at1, vec3_at2]
      fin_cases i <;> simp
    rw [hsaa]
    have hqn : quatNormalize ![Real.sin (Real.arccos (q 3) * 2 / 2), 0, 0, q 3]
        = ![Real.sin (Real.arccos (q 3) * 2 / 2), 0, 0, q 3] := by
      apply quatNormalize_of_unit
      simp only [vec4_at0, vec4_at1, vec4_at2, vec4_at3]
      linear_combination hs_sq
    rw [hqn]
    have hqp : q 0 ^ 2 + q 1 ^ 2 + q 2 ^ 2 + q 3 ^ 2 = 1 := by linear_combination hq
    have habs : ∀ j : Fin 4, q j ^ 2 ≤ Real.sin (Real.arccos (q 3) * 2 / 2) ^ 2 →
        |q j| ≤ Real.sin (Real.arccos (q 3) * 2 / 2) := by
      intro j hj
      calc |q j| = Real.sqrt (q j ^ 2) := (Real.sqrt_sq_eq_abs _).symm
        _ ≤ Real.sqrt (Real.sin (Real.arccos (q 3) * 2 / 2) ^ 2) := Real.sqrt_le_sqrt hj
        _ = Real.sin (Real.arccos (q 3) * 2 / 2) := Real.sqrt_sq hs_nonneg
    have habs0 : |q 0| ≤ Real.sin (Real.arccos (q 3) * 2 / 2) := by
      apply habs 0
      rw [hs_sq]
      linarith [sq_nonneg (q 1), sq_nonneg (q 2)]
    have habs1 : |q 1| ≤ Real.sin (Real.arccos (q 3) * 2 / 2) := by
      apply habs 1
      rw [hs_sq]
      linarith [sq_nonneg (q 0), sq_nonneg (q 2)]
    have habs2 : |q 2| ≤ Real.sin (Real.arccos (q 3) * 2 / 2) := by
      apply habs 2
      rw [hs_sq]
      linarith [sq_nonneg (q 0), sq_nonneg (q 1)]
    have hb0 := abs_le.mp habs0
    have hb1 := abs_le.mp habs1
    have hb2 := abs_le.mp habs2
    have hεval : glEPSILON ≤ 1e-4 / 2 := by norm_num [glEPSILON]
    have hεpos : (0:ℝ) ≤ 1e-4 := by norm_num
    have hse2 : Real.sin (Real.arccos (q 3) * 2 / 2) ≤ 1e-4 / 2 := le_trans hse hεval
    intro i
    fin_cases i
    · show |Real.sin (Real.arccos (q 3) * 2 / 2) - q 0| ≤ 1e-4
      rw [abs_le]
      constructor
      · linarith [hb0.2]
      · linarith [hb0.1]
    · show |0 - q 1| ≤ 1e-4
      rw [zero_sub, abs_neg]
      linarith [habs1]
    · show |0 - q 2| ≤ 1e-4
      rw [zero_sub, abs_neg]
      linarith [habs2]
    · show |q 3 - q 3| ≤ 1e-4
      rw [sub_self, abs_zero]
      norm_num

/-- C3: for every unit quaternion and either valid unit selector, feeding the
axis and angle produced by quaternionToAxisAngle back into
axisAngleToQuaternion with the matching selector succeeds and returns a
quaternion equal componentwise to the original (here always with the + sign)
within 1e-4. -/
theorem quaternionToAxisAngle_roundtrip (out : Fin 4 → ℝ) (q : Fin 4 → ℝ)
    (u : String) (hq : q 0 * q 0 + q 1 * q 1 + q 2 * q 2 + q 3 * q 3 = 1)
    (hu : u = "deg" ∨ u = "rad") :
    ∃ q2 : Fin 4 → ℝ,
      axisAngleToQuaternion ((quaternionToAxisAngle out q u).2.1 0)
          ((quaternionToAxisAngle out q u).2.1 1)
          ((quaternionToAxisAngle out q u).2.1 2)
          ((quaternionToAxisAngle out q u).2.1 3) u = Except.ok q2
      ∧ ((∀ i, |q2 i - q i| ≤ 1e-4) ∨ (∀ i, |q2 i + q i| ≤ 1e-4)) := by
  have hnorm : quatNormalize q = q := quatNormalize_of_unit hq
  refine ⟨quatNormalize (quatSetAxisAngle
      (vec3Normalize ![(quatGetAxisAngle q).1 0, (quatGetAxisAngle q).1 1,
        (quatGetAxisAngle q).1 2]) ((quatGetAxisAngle q).2)), ?_,
    Or.inl (roundtrip_core q hq)⟩
  rcases hu with hu | hu <;> subst hu
  · rw [quaternionToAxisAngle_deg_eq, hnorm]
    dsimp only
    simp only [vec4_at0, vec4_at1, vec4_at2, vec4_at3]
    rw [axisAngleToQuaternion_deg_eq, toRadian_toDegree]
  · rw [quaternionToAxisAngle_rad_eq, hnorm]
    dsimp only
    simp only [vec4_at0, vec4_at1, vec4_at2, vec4_at3]
    rw [axisAngleToQuaternion_rad_eq]

/-- Witness for C3 at the identity quaternion (0,0,0,1) with unit "rad". -/
theorem quaternionToAxisAngle_roundtrip_witness :
    ((0:ℝ) * 0 + 0 * 0 + 0 * 0 + 1 * 1 = 1)
    ∧ ∃ q2 : Fin 4 → ℝ,
      axisAngleToQuaternion
          ((quaternionToAxisAngle ![0, 0, 0, 0] ![0, 0, 0, 1] "rad").2.1 0)
          ((quaternionToAxisAngle ![0, 0, 0, 0] ![0, 0, 0, 1] "rad").2.1 1)
          ((quaternionToAxisAngle ![0, 0, 0, 0] ![0, 0, 0, 1] "rad").2.1 2)
          ((quaternionToAxisAngle ![0, 0, 0, 0] ![0, 0, 0, 1] "rad").2.1 3) "rad"
        = Except.ok q2
      ∧ ((∀ i, |q2 i - (![0, 0, 0, 1] : Fin 4 → ℝ) i| ≤ 1e-4)
        ∨ (∀ i, |q2 i + (![0, 0, 0, 1] : Fin 4 → ℝ) i| ≤ 1e-4)) := by
  refine ⟨by norm_num, ?_⟩
  exact quaternionToAxisAngle_roundtrip ![0, 0, 0, 0] ![0, 0, 0, 1] "rad"
    (by norm_num) (Or.inr rfl)

end RotCalc
